import Mathlib

/-!
Verification development for the ray_art_admin admin panel.

The development shallowly embeds the product add/edit modal
(`AddProductModal`: draft state, file selection, category change, submit),
the Cloudinary upload adapter (`uploadToCloudinary`), and the debounced
newsletter search effect (`NewsletterPage`).  JavaScript strings are
modelled as Lean `String`/`List Char`, JavaScript numbers as `ℚ` (the
claims under study only exercise decimal parsing and the `|| 0` default,
not float rounding), and `undefined` as `Option.none`.
-/

/- # JavaScript string and number primitives -/

/-- Models the ASCII part of JavaScript whitespace (as skipped by
`parseFloat` and removed by `String.prototype.trim`). -/
def jsIsSpace (c : Char) : Bool :=
  c = ' ' || c = '\t' || c = '\n' || c = '\r' || c = '\x0b' || c = '\x0c'

/-- Drop leading JavaScript whitespace, as `parseFloat` does. -/
def skipWs : List Char → List Char
  | [] => []
  | c :: cs => if jsIsSpace c then skipWs cs else c :: cs

/-- Numeric value of a list of decimal digit characters. -/
def digitsVal (l : List Char) : ℕ :=
  l.foldl (fun a c => 10 * a + (c.toNat - '0'.toNat)) 0

/-- Parse the longest unsigned decimal-literal prefix
(`Digits [. Digits?] | . Digits`, with an optional `e`/`E` exponent that
only counts when followed by at least one digit), returning the parsed
value as (mantissa, power-of-ten exponent) together with the unconsumed
remainder; `none` when no such prefix exists.  Models the ECMAScript
`StrUnsignedDecimalLiteral` parse used by `parseFloat` (the `Infinity`
literal is not modelled; no claim exercises it). -/
def parseUnsignedSci (cs : List Char) : Option ((ℕ × ℤ) × List Char) :=
  let p1 := cs.span Char.isDigit
  let p2 :=
    match p1.2 with
    | '.' :: rest => rest.span Char.isDigit
    | _ => ([], p1.2)
  if p1.1 = [] ∧ p2.1 = [] then none
  else
    let mant : ℕ := digitsVal (p1.1 ++ p2.1)
    let fexp : ℤ := -(p2.1.length : ℤ)
    match p2.2 with
    | c :: r3 =>
      if c = 'e' ∨ c = 'E' then
        let sp : ℤ × List Char :=
          match r3 with
          | '+' :: t => (1, t)
          | '-' :: t => (-1, t)
          | _ => (1, r3)
        let ed := sp.2.span Char.isDigit
        if ed.1 = [] then some ((mant, fexp), p2.2)
        else some ((mant, fexp + sp.1 * (digitsVal ed.1 : ℤ)), ed.2)
      else some ((mant, fexp), p2.2)
    | [] => some ((mant, fexp), [])

/-- Parse an optional sign followed by an unsigned decimal literal. -/
def parseSignedSci (cs : List Char) : Option ((ℤ × ℤ) × List Char) :=
  match cs with
  | '+' :: rest => (parseUnsignedSci rest).map (fun p => (((p.1.1 : ℤ), p.1.2), p.2))
  | '-' :: rest => (parseUnsignedSci rest).map (fun p => ((-(p.1.1 : ℤ), p.1.2), p.2))
  | _ => (parseUnsignedSci cs).map (fun p => (((p.1.1 : ℤ), p.1.2), p.2))

/-- The rational value `m * 10 ^ e`. -/
def ratOfSci (m : ℤ) (e : ℤ) : ℚ :=
  if 0 ≤ e then (m : ℚ) * (10 : ℚ) ^ e.toNat else (m : ℚ) / (10 : ℚ) ^ (-e).toNat

/-- Model of JavaScript `parseFloat`: skip leading whitespace, take the
longest signed decimal-literal prefix; `none` models `NaN`. -/
def jsParseFloat (s : String) : Option ℚ :=
  (parseSignedSci (skipWs s.data)).map (fun p => ratOfSci p.1.1 p.1.2)

/-- The decimal value a string denotes as a whole (leading whitespace
allowed, no other surrounding junk): the specification-side notion of a
"valid decimal string". -/
def decValue (s : String) : Option ℚ :=
  match parseSignedSci (skipWs s.data) with
  | some (v, []) => some (ratOfSci v.1 v.2)
  | _ => none

/-- Models `x || 0` applied to a JavaScript number that may be `NaN`
(`none`): `NaN` and `0`/`-0` are falsy and give `0`. -/
def jsOrZero (x : Option ℚ) : ℚ :=
  match x with
  | none => 0
  | some q => if q = 0 then 0 else q

/-- Models `x || d` for a possibly-`undefined` string `x`: `undefined`
and the empty string are falsy. -/
def jsOrDefault (x : Option String) (d : String) : String :=
  match x with
  | some v => if v = "" then d else v
  | none => d

/-- Models `s || ""` for a definite string `s`. -/
def jsOrEmpty (s : String) : String :=
  if s = "" then "" else s

/-- Models JavaScript `str.split(c)` for a one-character separator:
splitting the empty string yields `[[]]`, i.e. `[""]`. -/
def splitOnChar (c : Char) : List Char → List (List Char)
  | [] => [[]]
  | x :: xs =>
    if x = c then [] :: splitOnChar c xs
    else
      match splitOnChar c xs with
      | [] => [[x]]
      | y :: ys => (x :: y) :: ys

/-- Models JavaScript `arr.join(c)` for a one-character separator. -/
def joinChar (c : Char) : List (List Char) → List Char
  | [] => []
  | [p] => p
  | p :: q :: rest => p ++ c :: joinChar c (q :: rest)

/-- A line is blank when it is whitespace only, i.e. exactly when
`line.trim() === ''` holds in the source's filter predicate. -/
def isBlank (l : List Char) : Bool :=
  l.all jsIsSpace

/- # Product form state (AddProductModal) -/

/-- The `newProduct` draft state of `AddProductModal`: every field is a
string bound to a text input. -/
structure ProductDraft where
  name : String
  description : String
  features : String
  price : String
  originalPrice : String
  imageUrl : String
  category : String
  subCategory : String
deriving DecidableEq, Repr

/-- The initial/reset draft (`useState` initial value and `handleReset`). -/
def emptyDraft : ProductDraft :=
  { name := "", description := "", features := "", price := "",
    originalPrice := "", imageUrl := "", category := "", subCategory := "" }

/-- File contents are opaque to the claims; a file is modelled by a
string. -/
abbrev JsFile := String

/-- The local component state of `AddProductModal`. -/
structure ModalState where
  draft : ProductDraft
  isSubmitting : Bool
  isUploading : Bool
  selectedFile : Option JsFile
  imagePreview : Option String
deriving DecidableEq, Repr

/-- The optional `product` prop used for editing.  It is typed `any` in
the source; the fields the component reads are modelled, each possibly
`undefined` (`none`).  `features` may be an array (`inl`) or a string
(`inr`), numeric fields are rationals, `id` is an integer. -/
structure ExistingProduct where
  id : Option ℤ := none
  name : Option String := none
  description : Option String := none
  features : Option (List String ⊕ String) := none
  price : Option ℚ := none
  originalPrice : Option ℚ := none
  imageUrl : Option String := none
  category : Option String := none
  subCategory : Option String := none
deriving DecidableEq, Repr

/-- Models JavaScript `String(q)` on a number.  Integral values render as
their decimal numeral; non-integral values are approximated by the
rational's own rendering (no claim evaluates this branch). -/
def jsStringOfNum (q : ℚ) : String :=
  if q.den = 1 then toString q.num else toString q

/-- Models `String(x)` on a numeric field that may be `undefined`:
`String(undefined)` is the literal string `"undefined"`. -/
def jsStringOfNumField (x : Option ℚ) : String :=
  match x with
  | none => "undefined"
  | some q => jsStringOfNum q

/-- The features field of the populate effect:
`Array.isArray(product.features) ? product.features.join('\n')
 : (product.features || '')`. -/
def populateFeatures (f : Option (List String ⊕ String)) : String :=
  match f with
  | some (.inl arr) => String.intercalate "\n" arr
  | some (.inr s) => jsOrEmpty s
  | none => ""

/-- The `React.useEffect` populate step run when the modal opens on an
existing product: builds the draft from the product's fields. -/
def populateDraft (p : ExistingProduct) : ProductDraft :=
  { name := jsOrDefault p.name ""
    description := jsOrDefault p.description ""
    features := populateFeatures p.features
    price := jsOrEmpty (jsStringOfNumField p.price)
    originalPrice := jsOrEmpty (jsStringOfNumField p.originalPrice)
    imageUrl := jsOrDefault p.imageUrl ""
    category := jsOrDefault p.category ""
    subCategory := jsOrDefault p.subCategory "" }

/-- Models the `FileReader.readAsDataURL` preview derivation. -/
def dataUrlOf (f : JsFile) : String :=
  "data:" ++ f

/-- `handleFileChange`: when a file is present in the event, record it and
its preview, and — only when no `product` prop is supplied (create mode) —
clear the draft's `imageUrl`. -/
def handleFileChange (product : Option ExistingProduct) (st : ModalState)
    (file : Option JsFile) : ModalState :=
  match file with
  | none => st
  | some f =>
    let st1 := { st with selectedFile := some f, imagePreview := some (dataUrlOf f) }
    if product.isNone then { st1 with draft := { st1.draft with imageUrl := "" } }
    else st1

/-- The `onChange` handler of the Category dropdown:
`setNewProduct({ ...newProduct, category: val, subCategory: '' })`. -/
def categoryOnChange (st : ModalState) (val : String) : ModalState :=
  { st with draft := { st.draft with category := val, subCategory := "" } }

/- # Submit (handleAddProduct) -/

/-- Feature-list transformation of `handleAddProduct`:
`features ? features.split('\n').filter(f => f.trim() !== '') : []`. -/
def featuresArray (features : List Char) : List (List Char) :=
  if features = [] then []
  else (splitOnChar '\n' features).filter (fun f => ! isBlank f)

/-- The JSON body built by `handleAddProduct`: the draft spread with
`price`/`originalPrice` parsed (`parseFloat(x) || 0`) and `features`
split into an array. -/
structure ProductData where
  name : String
  description : String
  features : List String
  price : ℚ
  originalPrice : ℚ
  imageUrl : String
  category : String
  subCategory : String
deriving DecidableEq, Repr

/-- Build the request body from a draft, as `handleAddProduct` does. -/
def mkProductData (d : ProductDraft) : ProductData :=
  { name := d.name
    description := d.description
    features := (featuresArray d.features.data).map (fun l => String.mk l)
    price := jsOrZero (jsParseFloat d.price)
    originalPrice := jsOrZero (jsParseFloat d.originalPrice)
    imageUrl := d.imageUrl
    category := d.category
    subCategory := d.subCategory }

/-- `isEditing = !!product?.id`: true exactly when a product prop is
present and its `id` is a truthy number (present and nonzero). -/
def isEditingOf (product : Option ExistingProduct) : Bool :=
  match product with
  | some p =>
    match p.id with
    | some n => n != 0
    | none => false
  | none => false

/-- String interpolation of `product.id` into the update URL. -/
def productIdString (id : Option ℤ) : String :=
  match id with
  | none => "undefined"
  | some n => toString n

/-- A toast notification (`react-hot-toast`). -/
inductive Toast where
  | success (msg : String)
  | error (msg : String)
deriving DecidableEq, Repr

/-- The HTTP request issued by `handleAddProduct`. -/
structure Request where
  method : String
  url : String
  body : ProductData
deriving DecidableEq, Repr

/-- The parsed JSON save response: `{success: boolean, message?: string}`. -/
structure ServerResponse where
  success : Bool
  message : Option String
deriving DecidableEq, Repr

/-- Everything observable about one `handleAddProduct` invocation. -/
structure SubmitOutcome where
  request : Option Request
  toasts : List Toast
  stateAfter : ModalState
  closedModal : Bool
  onSuccessCalled : Bool
deriving DecidableEq, Repr

/-- `handleReset` as applied by `handleClose` (it does not touch
`isSubmitting`). -/
def resetState (st : ModalState) : ModalState :=
  { draft := emptyDraft, isSubmitting := st.isSubmitting, isUploading := false,
    selectedFile := none, imagePreview := none }

/-- One invocation of `handleAddProduct`.  `response` is the parsed JSON
the server would reply with; `none` models a transport error (a `fetch`
or `response.json()` rejection caught by the `catch` block).  The early
imageUrl validation issues no request and leaves the state untouched;
otherwise the request is built from the draft and the outcome follows the
`result.success` branch, with `setIsSubmitting(false)` from `finally`. -/
def handleAddProduct (baseUrl : String) (product : Option ExistingProduct)
    (st : ModalState) (response : Option ServerResponse) : SubmitOutcome :=
  if st.draft.imageUrl = "" then
    { request := none
      toasts := [Toast.error "Please upload an image for the product"]
      stateAfter := st
      closedModal := false
      onSuccessCalled := false }
  else
    let productData := mkProductData st.draft
    let isEditing := isEditingOf product
    let url :=
      if isEditing then baseUrl ++ "/api/products/" ++ productIdString (product.bind (fun p => p.id))
      else baseUrl ++ "/api/products"
    let req : Request := { method := if isEditing then "PUT" else "POST", url := url, body := productData }
    match response with
    | none =>
      { request := some req
        toasts := [Toast.error "Failed to save product"]
        stateAfter := { st with isSubmitting := false }
        closedModal := false
        onSuccessCalled := false }
    | some result =>
      if result.success then
        { request := some req
          toasts := [Toast.success (jsOrDefault result.message
            (if isEditing then "Product updated successfully" else "Product added successfully"))]
          stateAfter := { resetState st with isSubmitting := false }
          closedModal := true
          onSuccessCalled := true }
      else
        { request := some req
          toasts := [Toast.error (jsOrDefault result.message
            (if isEditing then "Failed to update product" else "Failed to add product"))]
          stateAfter := { st with isSubmitting := false }
          closedModal := false
          onSuccessCalled := false }

/- # Cloudinary upload adapter (src/lib/cloudinary.ts) -/

/-- The provider result shape: `secure_url`, `public_id`, plus arbitrary
further metadata fields. -/
structure CloudinaryUploadResult where
  secure_url : String
  public_id : String
  extra : List (String × String)
deriving DecidableEq, Repr

/-- A rejection of the upload promise: either the provider-reported error
value, or the adapter's own `Error` for a missing result. -/
inductive UploadRejection where
  | providerError (e : String)
  | noResultError (msg : String)
deriving DecidableEq, Repr

/-- Settlement of the promise returned by `uploadToCloudinary`. -/
inductive UploadOutcome where
  | rejected (r : UploadRejection)
  | resolved (r : CloudinaryUploadResult)
deriving DecidableEq, Repr

/-- The `upload_stream` callback of `uploadToCloudinary`, as a function of
what the provider reports: `(error, result) =>` reject on `error`, reject
with a fresh `Error` when `result` is missing, otherwise resolve. -/
def uploadToCloudinary (error : Option String)
    (result : Option CloudinaryUploadResult) : UploadOutcome :=
  match error with
  | some e => .rejected (.providerError e)
  | none =>
    match result with
    | none => .rejected (.noResultError "Cloudinary upload failed: No result returned")
    | some r => .resolved r

/- # Newsletter search debounce (NewsletterPage) -/

/-- The arguments of one `fetchNewsletters` call. -/
structure FetchCall where
  page : ℕ
  search : String
deriving DecidableEq, Repr

/-- The debounced search effect: each change of `searchQuery` (an event
`(t, s)` at time `t` with accumulated text `s`) schedules
`fetchNewsletters(1, s)` at `t + 500`, and the effect cleanup cancels the
previous timer; a timer fires only when the next event arrives no earlier
than 500 ms later.  Returns the fetch calls actually issued, in order. -/
def debounceFetches : List (ℕ × String) → List FetchCall
  | [] => []
  | [(_, s)] => [{ page := 1, search := s }]
  | (t1, s1) :: (t2, s2) :: rest =>
    if t1 + 500 ≤ t2 then { page := 1, search := s1 } :: debounceFetches ((t2, s2) :: rest)
    else debounceFetches ((t2, s2) :: rest)

/- # Helper lemmas -/

theorem splitOnChar_ne_nil (c : Char) (l : List Char) : splitOnChar c l ≠ [] := by
  induction l with
  | nil => simp [splitOnChar]
  | cons x xs ih =>
    simp only [splitOnChar]
    by_cases h : x = c
    · simp [h]
    · rw [if_neg h]
      cases hs : splitOnChar c xs with
      | nil => exact absurd hs ih
      | cons y ys => simp

theorem splitOnChar_not_mem (c : Char) (l : List Char) :
    ∀ p ∈ splitOnChar c l, c ∉ p := by
  induction l with
  | nil =>
    intro p hp
    simp only [splitOnChar, List.mem_singleton] at hp
    simp [hp]
  | cons x xs ih =>
    intro p hp
    simp only [splitOnChar] at hp
    by_cases h : x = c
    · rw [if_pos h] at hp
      rcases List.mem_cons.mp hp with h1 | h1
      · simp [h1]
      · exact ih p h1
    · rw [if_neg h] at hp
      cases hs : splitOnChar c xs with
      | nil => exact absurd hs (splitOnChar_ne_nil c xs)
      | cons y ys =>
        rw [hs] at hp
        rcases List.mem_cons.mp hp with h1 | h1
        · subst h1
          intro hc
          rcases List.mem_cons.mp hc with h2 | h2
          · exact h h2.symm
          · exact ih y (by rw [hs]; exact List.mem_cons_self y ys) h2
        · exact ih p (by rw [hs]; exact List.mem_cons_of_mem y h1)

theorem splitOnChar_append (c : Char) (p t : List Char) (hp : c ∉ p) :
    splitOnChar c (p ++ c :: t) = p :: splitOnChar c t := by
  induction p with
  | nil => simp [splitOnChar]
  | cons x xs ih =>
    have hx : x ≠ c := fun h => hp (by rw [h]; exact List.mem_cons_self c xs)
    have hxs : c ∉ xs := fun h => hp (List.mem_cons_of_mem x h)
    rw [List.cons_append]
    simp only [splitOnChar, if_neg hx, ih hxs]

theorem splitOnChar_no_sep (c : Char) (p : List Char) (hp : c ∉ p) :
    splitOnChar c p = [p] := by
  induction p with
  | nil => simp [splitOnChar]
  | cons x xs ih =>
    have hx : x ≠ c := fun h => hp (by rw [h]; exact List.mem_cons_self c xs)
    have hxs : c ∉ xs := fun h => hp (List.mem_cons_of_mem x h)
    simp only [splitOnChar, if_neg hx, ih hxs]

theorem splitOnChar_joinChar (c : Char) (L : List (List Char)) (hL : L ≠ [])
    (h : ∀ p ∈ L, c ∉ p) : splitOnChar c (joinChar c L) = L := by
  induction L with
  | nil => exact absurd rfl hL
  | cons p rest ih =>
    cases rest with
    | nil =>
      simp only [joinChar]
      exact splitOnChar_no_sep c p (h p (List.mem_cons_self p []))
    | cons q rest2 =>
      show splitOnChar c (p ++ c :: joinChar c (q :: rest2)) = p :: q :: rest2
      rw [splitOnChar_append c p _ (h p (List.mem_cons_self p (q :: rest2)))]
      rw [ih (by simp) (fun r hr => h r (List.mem_cons_of_mem p hr))]

theorem featuresArray_join_idem (s : List Char) :
    featuresArray (joinChar '\n' (featuresArray s)) = featuresArray s := by
  by_cases hs : s = []
  · simp [featuresArray, hs, joinChar]
  · have hfa : featuresArray s = (splitOnChar '\n' s).filter (fun f => ! isBlank f) := by
      simp [featuresArray, hs]
    rcases hL : featuresArray s with _ | ⟨p, rest⟩
    · simp [joinChar, featuresArray]
    · have hmem : ∀ r ∈ p :: rest, '\n' ∉ r ∧ isBlank r = false := by
        intro r hr
        have hrf : r ∈ (splitOnChar '\n' s).filter (fun f => ! isBlank f) := by
          rw [← hfa, hL]; exact hr
        rcases List.mem_filter.mp hrf with ⟨h1, h2⟩
        exact ⟨splitOnChar_not_mem '\n' s r h1, by simpa using h2⟩
      have hpne : p ≠ [] := by
        intro hp0
        have hb := (hmem p (List.mem_cons_self p rest)).2
        rw [hp0] at hb
        simp [isBlank] at hb
      have hjne : joinChar '\n' (p :: rest) ≠ [] := by
        cases rest with
        | nil => simpa [joinChar] using hpne
        | cons q r2 => simp [joinChar]
      simp only [featuresArray, if_neg hjne]
      rw [splitOnChar_joinChar '\n' (p :: rest) (by simp) (fun r hr => (hmem r hr).1)]
      exact List.filter_eq_self.mpr (fun r hr => by simp [(hmem r hr).2])

theorem jsOrZero_some (q : ℚ) : jsOrZero (some q) = q := by
  unfold jsOrZero
  by_cases h : q = 0
  · simp [h]
  · simp [h]

/- # Claim theorems -/

/-- Claim C1: submitting a draft whose `imageUrl` is empty issues no
request (neither POST nor PUT), surfaces the validation toast, and leaves
the draft and all workflow state unchanged. -/
theorem submit_empty_imageUrl_blocks (baseUrl : String)
    (product : Option ExistingProduct) (st : ModalState)
    (response : Option ServerResponse) (h : st.draft.imageUrl = "") :
    (handleAddProduct baseUrl product st response).request = none ∧
    (handleAddProduct baseUrl product st response).toasts =
      [Toast.error "Please upload an image for the product"] ∧
    (handleAddProduct baseUrl product st response).stateAfter = st ∧
    (handleAddProduct baseUrl product st response).closedModal = false ∧
    (handleAddProduct baseUrl product st response).onSuccessCalled = false := by
  simp [handleAddProduct, h]

/-- Witness for C1 at a concrete blocked submit. -/
theorem submit_empty_imageUrl_blocks_witness :
    (handleAddProduct "http://x" none
      { draft := emptyDraft, isSubmitting := false, isUploading := false,
        selectedFile := none, imagePreview := none } none).request = none :=
  (submit_empty_imageUrl_blocks "http://x" none
    { draft := emptyDraft, isSubmitting := false, isUploading := false,
      selectedFile := none, imagePreview := none } none rfl).1

/-- Claim C2: the submitted feature list is the `features` text split on
line breaks with blank (whitespace-only) lines removed, in order; and the
operation is idempotent — joining the result with line breaks and
re-splitting reproduces the same sequence. -/
theorem features_split_and_idempotent (d : ProductDraft) :
    (mkProductData d).features =
      ((splitOnChar '\n' d.features.data).filter (fun f => ! isBlank f)).map
        (fun l => String.mk l) ∧
    featuresArray (joinChar '\n' (featuresArray d.features.data)) =
      featuresArray d.features.data := by
  constructor
  · by_cases h : d.features.data = []
    · simp [mkProductData, featuresArray, h, splitOnChar, isBlank]
    · simp [mkProductData, featuresArray, h]
  · exact featuresArray_join_idem d.features.data

/-- Claim C4 counterexample: when the provider reports no error and no
result, the adapter rejects with the message
"Cloudinary upload failed: No result returned", which is not the message
"upload failed: no result returned" stated by the claim. -/
theorem upload_no_result_message_cex :
    uploadToCloudinary none none =
      .rejected (.noResultError "Cloudinary upload failed: No result returned") ∧
    "Cloudinary upload failed: No result returned" ≠
      "upload failed: no result returned" := by
  exact ⟨rfl, by decide⟩

/-- Claim C4 (amended): the upload promise rejects in exactly two cases —
with the provider error when one is reported, and with the message
"Cloudinary upload failed: No result returned" when no error but also no
result is reported; in every other case it resolves with the provider
result. -/
theorem upload_outcome_cases :
    (∀ (e : String) (r : Option CloudinaryUploadResult),
      uploadToCloudinary (some e) r = .rejected (.providerError e)) ∧
    uploadToCloudinary none none =
      .rejected (.noResultError "Cloudinary upload failed: No result returned") ∧
    (∀ r : CloudinaryUploadResult, uploadToCloudinary none (some r) = .resolved r) :=
  ⟨fun _ _ => rfl, rfl, fun _ => rfl⟩

/-- Claim C7: selecting a file in create mode (no product prop) clears the
draft's `imageUrl` whatever its prior value; in edit mode file selection
leaves `imageUrl` untouched. -/
theorem file_select_clears_imageUrl_in_create_mode (st : ModalState) (f : JsFile) :
    (handleFileChange none st (some f)).draft.imageUrl = "" ∧
    ∀ p : ExistingProduct,
      (handleFileChange (some p) st (some f)).draft.imageUrl = st.draft.imageUrl := by
  constructor
  · simp [handleFileChange]
  · intro p
    simp [handleFileChange]

/-- Claim C8: every change of the category field resets `subCategory` to
the empty string, for every prior value of both fields. -/
theorem category_change_clears_subCategory (st : ModalState) (val : String) :
    (categoryOnChange st val).draft.subCategory = "" ∧
    (categoryOnChange st val).draft.category = val := by
  exact ⟨rfl, rfl⟩

/-- Claim C3 counterexample: the string "3x" denotes no decimal number,
yet the submitted price is 3, not 0 (`parseFloat` parses the longest
numeric prefix). -/
theorem price_nonnumeric_cex :
    decValue "3x" = none ∧
    (mkProductData { emptyDraft with price := "3x" }).price = 3 := by
  constructor
  · decide
  · have h : parseSignedSci (skipWs "3x".data) = some ((3, 0), ['x']) := by decide
    simp [mkProductData, jsParseFloat, h, jsOrZero, ratOfSci]

/-- Claim C3 (amended): when no decimal prefix can be parsed from the
price string the submitted price is exactly 0; when the string denotes a
decimal value, the submitted price equals that value (round-trips); the
same holds for `originalPrice`. -/
theorem price_parse_default (d : ProductDraft) :
    (jsParseFloat d.price = none → (mkProductData d).price = 0) ∧
    (∀ q : ℚ, decValue d.price = some q → (mkProductData d).price = q) ∧
    (jsParseFloat d.originalPrice = none → (mkProductData d).originalPrice = 0) ∧
    (∀ q : ℚ, decValue d.originalPrice = some q → (mkProductData d).originalPrice = q) := by
  have key : ∀ s : String,
      (jsParseFloat s = none → jsOrZero (jsParseFloat s) = 0) ∧
      (∀ q : ℚ, decValue s = some q → jsOrZero (jsParseFloat s) = q) := by
    intro s
    constructor
    · intro h
      simp [h, jsOrZero]
    · intro q hq
      unfold decValue at hq
      rcases hps : parseSignedSci (skipWs s.data) with _ | ⟨v, rest⟩
      · rw [hps] at hq
        simp at hq
      · rw [hps] at hq
        cases rest with
        | nil =>
          simp only [Option.some.injEq] at hq
          unfold jsParseFloat
          rw [hps]
          show jsOrZero (some (ratOfSci v.1 v.2)) = q
          rw [jsOrZero_some, hq]
        | cons c cs =>
          simp at hq
  refine ⟨?_, ?_, ?_, ?_⟩
  · intro h
    exact (key d.price).1 h
  · intro q hq
    exact (key d.price).2 q hq
  · intro h
    exact (key d.originalPrice).1 h
  · intro q hq
    exact (key d.originalPrice).2 q hq

/-- Witness for C3 (amended): the valid decimal string "1.5" round-trips
to the rational 3/2. -/
theorem price_parse_default_witness :
    (mkProductData { emptyDraft with price := "1.5" }).price = 3 / 2 := by
  have hp : parseSignedSci (skipWs "1.5".data) = some ((15, -1), []) := by decide
  have h : decValue "1.5" = some (3 / 2) := by
    simp [decValue, hp, ratOfSci]
    norm_num
  exact (price_parse_default { emptyDraft with price := "1.5" }).2.1 (3 / 2) h

/-- Claim C5 counterexample: a product prop carrying the identifier 0
(an identifier that is present but falsy) makes the submit issue a POST,
not a PUT. -/
theorem edit_id_zero_posts_cex :
    ((handleAddProduct "" (some { id := some 0 })
      { draft := { emptyDraft with imageUrl := "u" }, isSubmitting := false,
        isUploading := false, selectedFile := none, imagePreview := none }
      (some { success := true, message := none })).request).map (fun r => r.method)
      = some "POST" := by
  decide

/-- Claim C5 (amended): when the workflow is opened on a product carrying
a truthy (nonzero) identifier `n`, the submit issues a PUT to
`/api/products/n` and never a POST; when no product is supplied, or the
product's identifier is absent or 0 (falsy), it issues a POST to
`/api/products`. -/
theorem save_method_selection (baseUrl : String) (st : ModalState)
    (response : Option ServerResponse) (h : st.draft.imageUrl ≠ "") :
    (∀ (p : ExistingProduct) (n : ℤ), p.id = some n → n ≠ 0 →
      (handleAddProduct baseUrl (some p) st response).request =
        some { method := "PUT",
               url := baseUrl ++ "/api/products/" ++ toString n,
               body := mkProductData st.draft }) ∧
    ((handleAddProduct baseUrl none st response).request =
        some { method := "POST", url := baseUrl ++ "/api/products",
               body := mkProductData st.draft }) ∧
    (∀ p : ExistingProduct, (p.id = none ∨ p.id = some 0) →
      (handleAddProduct baseUrl (some p) st response).request =
        some { method := "POST", url := baseUrl ++ "/api/products",
               body := mkProductData st.draft }) := by
  refine ⟨?_, ?_, ?_⟩
  · intro p n hid hn
    have he : isEditingOf (some p) = true := by simp [isEditingOf, hid, hn]
    cases response with
    | none => simp [handleAddProduct, h, he, hid, productIdString]
    | some r =>
      by_cases hs : r.success
      · simp [handleAddProduct, h, he, hid, productIdString, hs]
      · simp [handleAddProduct, h, he, hid, productIdString, hs]
  · have he : isEditingOf none = false := rfl
    cases response with
    | none => simp [handleAddProduct, h, he]
    | some r =>
      by_cases hs : r.success
      · simp [handleAddProduct, h, he, hs]
      · simp [handleAddProduct, h, he, hs]
  · intro p hid
    have he : isEditingOf (some p) = false := by
      rcases hid with hid | hid
      · simp [isEditingOf, hid]
      · simp [isEditingOf, hid]
    cases response with
    | none => simp [handleAddProduct, h, he]
    | some r =>
      by_cases hs : r.success
      · simp [handleAddProduct, h, he, hs]
      · simp [handleAddProduct, h, he, hs]

/-- Witness for C5 (amended): editing a product with id 42 issues a PUT
to the product-specific endpoint. -/
theorem save_method_selection_witness :
    (handleAddProduct "" (some { id := some 42 })
      { draft := { emptyDraft with imageUrl := "u" }, isSubmitting := false,
        isUploading := false, selectedFile := none, imagePreview := none }
      (some { success := true, message := none })).request =
      some { method := "PUT", url := "" ++ "/api/products/" ++ toString (42 : ℤ),
             body := mkProductData { emptyDraft with imageUrl := "u" } } :=
  (save_method_selection ""
    { draft := { emptyDraft with imageUrl := "u" }, isSubmitting := false,
      isUploading := false, selectedFile := none, imagePreview := none }
    (some { success := true, message := none }) (by decide)).1
    { id := some 42 } 42 rfl (by decide)

/-- Claim C6 counterexample: the server response
`{success: false, message: ""}` carries a message, but the notification
shows the generic text "Failed to add product", not the server message
(the empty string is falsy in `result.message || ...`). -/
theorem failure_empty_message_cex :
    (handleAddProduct "" none
      { draft := { emptyDraft with imageUrl := "u" }, isSubmitting := false,
        isUploading := false, selectedFile := none, imagePreview := none }
      (some { success := false, message := some "" })).toasts
      = [Toast.error "Failed to add product"] ∧
    (handleAddProduct "" none
      { draft := { emptyDraft with imageUrl := "u" }, isSubmitting := false,
        isUploading := false, selectedFile := none, imagePreview := none }
      (some { success := false, message := some "" })).toasts
      ≠ [Toast.error ""] := by
  constructor
  · decide
  · decide

/-- Claim C6 (amended): on a server response `{success: false, message: X}`
with a non-empty `X`, a notification showing `X` appears; when the message
is absent or empty, the generic failure message is shown instead; in all
these cases the draft is left unchanged so the user can retry, and the
workflow stays open. -/
theorem failure_toast_and_draft (baseUrl : String)
    (product : Option ExistingProduct) (st : ModalState) (m : Option String)
    (h : st.draft.imageUrl ≠ "") :
    (∀ s, m = some s → s ≠ "" →
      (handleAddProduct baseUrl product st
        (some { success := false, message := m })).toasts = [Toast.error s]) ∧
    ((m = none ∨ m = some "") →
      (handleAddProduct baseUrl product st
        (some { success := false, message := m })).toasts
        = [Toast.error (if isEditingOf product then "Failed to update product"
            else "Failed to add product")]) ∧
    (handleAddProduct baseUrl product st
      (some { success := false, message := m })).stateAfter.draft = st.draft ∧
    (handleAddProduct baseUrl product st
      (some { success := false, message := m })).closedModal = false := by
  refine ⟨?_, ?_, ?_, ?_⟩
  · intro s hm hs
    simp [handleAddProduct, h, hm, jsOrDefault, hs]
  · intro hm
    rcases hm with hm | hm
    · simp [handleAddProduct, h, hm, jsOrDefault]
    · simp [handleAddProduct, h, hm, jsOrDefault]
  · simp [handleAddProduct, h]
  · simp [handleAddProduct, h]

/-- Witness for C6 (amended): the server message "X" is shown verbatim. -/
theorem failure_toast_and_draft_witness :
    (handleAddProduct "" none
      { draft := { emptyDraft with imageUrl := "u" }, isSubmitting := false,
        isUploading := false, selectedFile := none, imagePreview := none }
      (some { success := false, message := some "X" })).toasts
      = [Toast.error "X"] :=
  (failure_toast_and_draft "" none
    { draft := { emptyDraft with imageUrl := "u" }, isSubmitting := false,
      isUploading := false, selectedFile := none, imagePreview := none }
    (some "X") (by decide)).1 "X" rfl (by decide)

/-- Claim C9: for a nonempty run of search-input events whose successive
gaps are all shorter than the 500 ms quiet period, exactly one fetch is
issued, for page 1 with the final accumulated search string. -/
theorem debounce_single_fetch (events : List (ℕ × String)) (e : ℕ × String)
    (hlast : events.getLast? = some e)
    (hgaps : events.Chain' (fun a b => b.1 < a.1 + 500)) :
    debounceFetches events = [{ page := 1, search := e.2 }] := by
  induction events with
  | nil => simp at hlast
  | cons a tail ih =>
    cases tail with
    | nil =>
      rcases a with ⟨t, s⟩
      obtain rfl : (t, s) = e := by simpa using hlast
      simp [debounceFetches]
    | cons b rest =>
      rcases a with ⟨t1, s1⟩
      rcases b with ⟨t2, s2⟩
      have hlt : t2 < t1 + 500 := (List.chain'_cons.mp hgaps).1
      have hni : ¬ (t1 + 500 ≤ t2) := not_le.mpr hlt
      simp only [debounceFetches, if_neg hni]
      exact ih (by simpa using hlast) (List.chain'_cons.mp hgaps).2

/-- Witness for C9: three keystrokes 100 ms apart produce exactly one
fetch for page 1 with the final string. -/
theorem debounce_single_fetch_witness :
    debounceFetches [(0, "a"), (100, "ab"), (200, "abc")]
      = [{ page := 1, search := "abc" }] :=
  debounce_single_fetch [(0, "a"), (100, "ab"), (200, "abc")] (200, "abc")
    (by decide) (by norm_num [List.chain'_cons])

/-- Claim C10: opening the workflow in edit mode on a product whose price
(or originalPrice) field is absent populates that draft text field with
the literal string "undefined" (not the empty string, since
`String(undefined)` is truthy so the `|| ''` fallback never applies), and
a subsequent submit sends 0 for that field. -/
theorem absent_price_populates_undefined (p : ExistingProduct) :
    (p.price = none →
      (populateDraft p).price = "undefined" ∧
      (mkProductData (populateDraft p)).price = 0) ∧
    (p.originalPrice = none →
      (populateDraft p).originalPrice = "undefined" ∧
      (mkProductData (populateDraft p)).originalPrice = 0) := by
  have h2 : jsParseFloat "undefined" = none := by decide
  constructor
  · intro h
    have h1 : (populateDraft p).price = "undefined" := by
      simp [populateDraft, h, jsStringOfNumField, jsOrEmpty]
    refine ⟨h1, ?_⟩
    simp [mkProductData, h1, h2, jsOrZero]
  · intro h
    have h1 : (populateDraft p).originalPrice = "undefined" := by
      simp [populateDraft, h, jsStringOfNumField, jsOrEmpty]
    refine ⟨h1, ?_⟩
    simp [mkProductData, h1, h2, jsOrZero]

/-- Witness for C10 at the product with every field absent: both the
price and the originalPrice draft fields read "undefined" and both submit
as 0. -/
theorem absent_price_populates_undefined_witness :
    (populateDraft {}).price = "undefined" ∧
    (mkProductData (populateDraft {})).price = 0 ∧
    (populateDraft {}).originalPrice = "undefined" ∧
    (mkProductData (populateDraft {})).originalPrice = 0 :=
  ⟨((absent_price_populates_undefined {}).1 rfl).1,
   ((absent_price_populates_undefined {}).1 rfl).2,
   ((absent_price_populates_undefined {}).2 rfl).1,
   ((absent_price_populates_undefined {}).2 rfl).2⟩
